import Mathlib

/-!
Shallow embedding of the interview-session backend (bot-english-backend).
The domain model follows `src/domain/entities/session.ts`; use-cases follow
`src/application/use-cases/*.ts`. JavaScript numbers carrying delays are
modelled as rationals, with an explicit non-finite marker where the code
tests `Number.isFinite`; JavaScript string truthiness is modelled explicitly.
-/

/-- Session status, from `SessionStatus` in session.ts. -/
inductive SessionStatus where
  | in_progress
  | completed
deriving DecidableEq, Repr

/-- TimingSummary from session.ts: averages are rationals, counts naturals. -/
structure TimingSummary where
  avgResponseDelaySec : ℚ
  longPausesCount : ℕ
  totalTurns : ℕ
deriving DecidableEq, Repr

/-- CorrectionItem from session.ts. -/
structure CorrectionItem where
  original : String
  corrected : String
  reason : String
deriving DecidableEq, Repr

/-- ImprovedBestAnswer from session.ts. -/
structure ImprovedBestAnswer where
  question : String
  answer : String
deriving DecidableEq, Repr

/-- InterviewFeedback from session.ts. -/
structure InterviewFeedback where
  timingSummary : TimingSummary
  corrections : List CorrectionItem
  improvedBestAnswer : ImprovedBestAnswer
  interviewTips : List String
deriving DecidableEq, Repr

/-- SessionTurn from session.ts; nullable fields become `Option`. -/
structure SessionTurn where
  question : String
  answer : String
  followUpQuestion : Option String
  followUpAnswer : Option String
  mainResponseDelaySec : ℚ
  followUpResponseDelaySec : Option ℚ
deriving DecidableEq, Repr

/-- InterviewSession from session.ts, the aggregate root. -/
structure InterviewSession where
  id : String
  createdAt : String
  status : SessionStatus
  allowFollowUps : Bool
  questions : List String
  questionIndex : ℕ
  awaitingFollowUp : Bool
  pendingFollowUpQuestion : Option String
  turns : List SessionTurn
  result : Option InterviewFeedback
deriving DecidableEq, Repr

/-- JavaScript string truthiness for `string | null | undefined` values:
truthy iff present and non-empty. -/
def strTruthy : Option String → Bool
  | none => false
  | some s => s ≠ ""

/-- The model of JavaScript `String.prototype.trim()`: drop whitespace from
both ends (written over the character list so that it evaluates). -/
def jsTrim (s : String) : String :=
  ⟨((s.data.dropWhile Char.isWhitespace).reverse.dropWhile
      Char.isWhitespace).reverse⟩

/-- Rounding to 2 decimals, the model of JavaScript
`Number(x.toFixed(2))` on the (non-negative) values this code feeds it:
round half up at the second decimal. -/
def roundTo2 (q : ℚ) : ℚ := (⌊q * 100 + 1 / 2⌋ : ℤ) / 100

/-- computeTimingSummary from helpers.ts: flatten every main delay plus every
present follow-up delay, then average (rounded to 2 decimals, 0 when empty),
count entries strictly above 4, and report the flattened length. -/
def computeTimingSummary (turns : List SessionTurn) : TimingSummary :=
  let delays := turns.flatMap fun turn =>
    turn.mainResponseDelaySec ::
      (match turn.followUpResponseDelaySec with
       | some d => [d]
       | none => [])
  { avgResponseDelaySec :=
      if delays.length = 0 then 0
      else roundTo2 (delays.sum / (delays.length : ℚ)),
    longPausesCount := (delays.filter fun delay => 4 < delay).length,
    totalTurns := delays.length }

/-- The flattened delay sequence exactly as §4.4 of the spec words it: every
`mainResponseDelaySec`, plus every `followUpResponseDelaySec` that is present. -/
def specFlattenedDelays (turns : List SessionTurn) : List ℚ :=
  turns.flatMap fun turn =>
    [turn.mainResponseDelaySec] ++ turn.followUpResponseDelaySec.toList

/-- A JavaScript number as seen by `Number.isFinite`: a finite rational or a
non-finite value (NaN or an infinity). -/
inductive JsNumber where
  | finite (q : ℚ)
  | notFinite
deriving DecidableEq, Repr

/-- All failures surfaced by the use-cases, one constructor per throw site.
`notFound` is `NotFoundError`; the next seven are `ValidationError`s, in the
spec taxonomy split into InvalidState (`sessionCompleted`, `noActiveQuestion`,
`followUpUnavailable`) and InvalidInput (`missingAnswer`, `emptyAudio`,
`blankTranscript`, `invalidDelay`); `oracleFailure` is a propagated external
oracle error, untouched by the core. -/
inductive AppError where
  | notFound
  | sessionCompleted
  | noActiveQuestion
  | followUpUnavailable
  | missingAnswer
  | emptyAudio
  | blankTranscript
  | invalidDelay
  | oracleFailure
deriving DecidableEq, Repr

/-- The InvalidInput bucket of §7's error taxonomy. -/
def AppError.isInvalidInput : AppError → Bool
  | .missingAnswer => true
  | .emptyAudio => true
  | .blankTranscript => true
  | .invalidDelay => true
  | _ => false

/-- Interviewer reply shape from `InterviewCoachService.generateInterviewerReply`. -/
structure InterviewerReply where
  replyText : String
  followUpQuestion : Option String
deriving DecidableEq, Repr

/-- One entry of the transcript handed to feedback generation. -/
structure TranscriptEntry where
  questionNumber : ℕ
  question : String
  answer : String
  followUpQuestion : Option String
  followUpAnswer : Option String
deriving DecidableEq, Repr

/-- The oracle part of the feedback (`timingSummary` is computed locally). -/
structure FeedbackDraft where
  corrections : List CorrectionItem
  improvedBestAnswer : ImprovedBestAnswer
  interviewTips : List String
deriving DecidableEq, Repr

/-- External collaborators of one request: base64 decoding (Node's
`Buffer.from(s, 'base64')`, which never throws), the transcription oracle and
the three coaching-oracle operations. Oracle failures are `Except.error`. -/
structure Env where
  bufferFromBase64 : String → List ℕ
  transcribe : List ℕ → String → Except Unit String
  generateInterviewerReply : String → String → Except Unit InterviewerReply
  generateFollowUpClose : String → String → String → String → Except Unit String
  generateFeedback : TimingSummary → List TranscriptEntry → Except Unit FeedbackDraft

/-- SubmitAnswerInput from submit-answer.ts. -/
structure SubmitAnswerInput where
  sessionId : String
  answerText : Option String
  audioBase64 : Option String
  mimeType : Option String
  responseDelaySec : Option JsNumber

/-- Prompt kinds shared by SubmitAnswerResult and CurrentPromptResult. -/
inductive PromptType where
  | question
  | follow_up
  | completed
deriving DecidableEq, Repr

/-- SubmitAnswerResult from submit-answer.ts. -/
structure SubmitAnswerResult where
  sessionId : String
  status : SessionStatus
  usedTranscript : String
  interviewerMessage : String
  nextPrompt : Option String
  promptType : PromptType
  result : Option InterviewFeedback
deriving DecidableEq, Repr

/-- normalizeDelay from submit-answer.ts: 0 when absent, `ValidationError` when
non-finite or negative, else rounded to 2 decimals. -/
def normalizeDelay : Option JsNumber → Except AppError ℚ
  | none => .ok 0
  | some (.finite q) => if q < 0 then .error .invalidDelay else .ok (roundTo2 q)
  | some .notFinite => .error .invalidDelay

/-- The mime type actually used: `input.mimeType?.trim() || 'audio/wav'`. -/
def effectiveMimeType (mimeType : Option String) : String :=
  match mimeType with
  | some m => if jsTrim m = "" then "audio/wav" else jsTrim m
  | none => "audio/wav"

/-- resolveTranscript from submit-answer.ts. A truthy, non-blank `answerText`
wins; otherwise the audio payload must be truthy, decode to a non-empty
buffer, and transcribe to non-blank text. -/
def resolveTranscript (env : Env) (input : SubmitAnswerInput) :
    Except AppError String :=
  if strTruthy input.answerText && strTruthy (input.answerText.map jsTrim) then
    .ok (jsTrim (input.answerText.getD ""))
  else
    match input.audioBase64 with
    | none => .error .missingAnswer
    | some b64 =>
      if b64 = "" then .error .missingAnswer
      else
        let audio := env.bufferFromBase64 b64
        if audio.length = 0 then .error .emptyAudio
        else
          match env.transcribe audio (effectiveMimeType input.mimeType) with
          | .error _ => .error .oracleFailure
          | .ok transcript =>
            if jsTrim transcript = "" then .error .blankTranscript
            else .ok (jsTrim transcript)

/-- completeIfFinished from submit-answer.ts: below the question count it is a
no-op returning null; at exhaustion it computes the timing summary, builds the
per-question transcript, asks the feedback oracle, stores the result and marks
the session completed. -/
def completeIfFinished (env : Env) (session : InterviewSession) :
    Except AppError (Option InterviewFeedback × InterviewSession) :=
  if session.questionIndex < session.questions.length then .ok (none, session)
  else
    let timingSummary := computeTimingSummary session.turns
    let transcript := session.turns.enum.map fun p =>
      { questionNumber := p.1 + 1,
        question := p.2.question,
        answer := p.2.answer,
        followUpQuestion := p.2.followUpQuestion,
        followUpAnswer := p.2.followUpAnswer : TranscriptEntry }
    match env.generateFeedback timingSummary transcript with
    | .error _ => .error .oracleFailure
    | .ok fb =>
      let result : InterviewFeedback :=
        { timingSummary := timingSummary,
          corrections := fb.corrections,
          improvedBestAnswer := fb.improvedBestAnswer,
          interviewTips := fb.interviewTips }
      .ok (some result,
        { session with result := some result, status := .completed })

namespace SubmitAnswerUseCase

/-- submitMainAnswer from submit-answer.ts. `!question` and
`if (followUpQuestion)` are JavaScript truthiness tests, so an empty string
behaves like an absent value there. -/
def submitMainAnswer (env : Env) (session : InterviewSession)
    (transcript : String) (responseDelaySec : ℚ) :
    Except AppError (SubmitAnswerResult × InterviewSession) :=
  match session.questions.get? session.questionIndex with
  | none => .error .noActiveQuestion
  | some question =>
    if question = "" then .error .noActiveQuestion
    else
      match env.generateInterviewerReply question transcript with
      | .error _ => .error .oracleFailure
      | .ok interviewerReply =>
        let followUpQuestion :=
          if session.allowFollowUps then interviewerReply.followUpQuestion
          else none
        let turns' := session.turns ++
          [{ question := question,
             answer := transcript,
             followUpQuestion := followUpQuestion,
             followUpAnswer := none,
             mainResponseDelaySec := responseDelaySec,
             followUpResponseDelaySec := none }]
        if strTruthy followUpQuestion then
          let session' := { session with
            turns := turns',
            awaitingFollowUp := true,
            pendingFollowUpQuestion := followUpQuestion }
          .ok ({ sessionId := session.id,
                 status := session'.status,
                 usedTranscript := transcript,
                 interviewerMessage := interviewerReply.replyText,
                 nextPrompt := followUpQuestion,
                 promptType := .follow_up,
                 result := none }, session')
        else
          let advanced := { session with
            turns := turns',
            questionIndex := session.questionIndex + 1 }
          match completeIfFinished env advanced with
          | .error e => .error e
          | .ok (completion, session') =>
            .ok ({ sessionId := session.id,
                   status := session'.status,
                   usedTranscript := transcript,
                   interviewerMessage := interviewerReply.replyText,
                   nextPrompt :=
                     if session'.status = .completed then none
                     else session'.questions.get? session'.questionIndex,
                   promptType :=
                     if session'.status = .completed then .completed
                     else .question,
                   result := completion }, session')

/-- submitFollowUpAnswer from submit-answer.ts. The guard
`!activeTurn?.followUpQuestion` fails when there is no last turn or its
follow-up question is null or empty. -/
def submitFollowUpAnswer (env : Env) (session : InterviewSession)
    (transcript : String) (responseDelaySec : ℚ) :
    Except AppError (SubmitAnswerResult × InterviewSession) :=
  match session.turns.getLast? with
  | none => .error .followUpUnavailable
  | some activeTurn =>
    match activeTurn.followUpQuestion with
    | none => .error .followUpUnavailable
    | some fq =>
      if fq = "" then .error .followUpUnavailable
      else
        let turn' := { activeTurn with
          followUpAnswer := some transcript,
          followUpResponseDelaySec := some responseDelaySec }
        let turns' := session.turns.dropLast ++ [turn']
        match env.generateFollowUpClose activeTurn.question activeTurn.answer
            fq transcript with
        | .error _ => .error .oracleFailure
        | .ok closeText =>
          let advanced := { session with
            turns := turns',
            awaitingFollowUp := false,
            pendingFollowUpQuestion := none,
            questionIndex := session.questionIndex + 1 }
          match completeIfFinished env advanced with
          | .error e => .error e
          | .ok (completion, session') =>
            .ok ({ sessionId := session.id,
                   status := session'.status,
                   usedTranscript := transcript,
                   interviewerMessage := closeText,
                   nextPrompt :=
                     if session'.status = .completed then none
                     else session'.questions.get? session'.questionIndex,
                   promptType :=
                     if session'.status = .completed then .completed
                     else .question,
                   result := completion }, session')

/-- execute from submit-answer.ts, restricted to the found session: the
completed check, delay normalization, transcript resolution, then dispatch on
`awaitingFollowUp`. -/
def execute (env : Env) (input : SubmitAnswerInput)
    (session : InterviewSession) :
    Except AppError (SubmitAnswerResult × InterviewSession) :=
  if session.status = .completed then .error .sessionCompleted
  else
    match normalizeDelay input.responseDelaySec with
    | .error e => .error e
    | .ok responseDelaySec =>
      match resolveTranscript env input with
      | .error e => .error e
      | .ok transcript =>
        if session.awaitingFollowUp then
          submitFollowUpAnswer env session transcript responseDelaySec
        else
          submitMainAnswer env session transcript responseDelaySec

end SubmitAnswerUseCase

/-- The state of InMemorySessionRepository: its
`Map<string, InterviewSession>` keyed by session id, embedded as an
insertion-ordered association list (a JavaScript Map iterates in insertion
order and holds one entry per key). The repository passes every session
through `structuredClone`, which on immutable Lean values is the identity,
so entries hold the full-session snapshot by value. -/
abbrev Store := List (String × InterviewSession)

/-- `Map.prototype.set`: overwrite the value under an existing key, else
append a new entry. -/
def mapSet (store : Store) (key : String) (value : InterviewSession) :
    Store :=
  match store with
  | [] => [(key, value)]
  | (k, v) :: rest =>
    if k = key then (k, value) :: rest
    else (k, v) :: mapSet rest key value

/-- InMemorySessionRepository.findById: `sessions.get(sessionId)`, returning
a structured clone of the stored session or null. The clone is why the
use-cases observe value semantics: the session they mutate is detached from
the store until `save` writes it back. -/
def findById (store : Store) (sessionId : String) : Option InterviewSession :=
  match store.find? fun entry => entry.1 = sessionId with
  | some entry => some entry.2
  | none => none

/-- InMemorySessionRepository.save:
`sessions.set(session.id, clone(session))`. -/
def save (store : Store) (session : InterviewSession) : Store :=
  mapSet store session.id session

/-- InMemorySessionRepository.create: the same
`sessions.set(session.id, clone(session))` as save. -/
def createRecord (store : Store) (session : InterviewSession) : Store :=
  mapSet store session.id session

namespace SubmitAnswerUseCase

/-- execute from submit-answer.ts over the store: NotFound lookup, then the
session-level transition; the new snapshot is saved only on success. -/
def executeStore (env : Env) (store : Store) (input : SubmitAnswerInput) :
    Except AppError (SubmitAnswerResult × Store) :=
  match findById store input.sessionId with
  | none => .error .notFound
  | some session =>
    match execute env input session with
    | .error e => .error e
    | .ok (r, session') => .ok (r, save store session')

/-- The store that the system holds after a SubmitAnswer request: updated on
success, untouched when the transition aborted with an error. -/
def storeAfter (env : Env) (store : Store) (input : SubmitAnswerInput) :
    Store :=
  match executeStore env store input with
  | .ok (_, store') => store'
  | .error _ => store

end SubmitAnswerUseCase

/-- QUESTION_BANK from question-bank.ts, the static ten-question catalog. -/
def QUESTION_BANK : List String :=
  ["Tell me about yourself and your current backend focus.",
   "Describe a challenging production incident you handled. What did you do?",
   "How would you design a URL shortener service?",
   "How do you ensure reliability in a distributed system?",
   "Explain the difference between horizontal and vertical scaling.",
   "How do you diagnose slow database queries in production?",
   "Describe a time you disagreed with a teammate and how you resolved it.",
   "What tradeoffs would you consider when introducing caching?",
   "How would you make an API backward compatible over time?",
   "Why are you interested in this role and what value would you bring?"]

/-- Create input from create-session.ts; `questionCount` is an integer model
of the JavaScript number. -/
structure CreateSessionInput where
  questionCount : Option ℤ
  allowFollowUps : Option Bool

namespace CreateSessionUseCase

/-- execute from create-session.ts, with the generated id and timestamp as
explicit arguments: default count 3, clamp to [1, catalog length], slice the
catalog prefix, and initialize the fresh in-progress state. -/
def execute (input : CreateSessionInput) (id createdAt : String) :
    InterviewSession :=
  let requestedCount := input.questionCount.getD 3
  let questionCount := max 1 (min requestedCount (QUESTION_BANK.length : ℤ))
  { id := id,
    createdAt := createdAt,
    status := .in_progress,
    allowFollowUps := input.allowFollowUps.getD true,
    questions := QUESTION_BANK.take questionCount.toNat,
    questionIndex := 0,
    awaitingFollowUp := false,
    pendingFollowUpQuestion := none,
    turns := [],
    result := none }

end CreateSessionUseCase

/-- CurrentPromptResult from get-current-prompt.ts. -/
structure CurrentPromptResult where
  sessionId : String
  status : SessionStatus
  prompt : Option String
  promptType : PromptType
  questionNumber : ℕ
  totalQuestions : ℕ
deriving DecidableEq, Repr

namespace GetCurrentPromptUseCase

/-- execute from get-current-prompt.ts: NotFound lookup, completed branch,
the truthiness-guarded follow-up branch, else the current main question. A
pure read — it takes the store and returns only a result. -/
def execute (store : Store) (sessionId : String) :
    Except AppError CurrentPromptResult :=
  match findById store sessionId with
  | none => .error .notFound
  | some session =>
    if session.status = .completed then
      .ok { sessionId := session.id,
            status := session.status,
            prompt := none,
            promptType := .completed,
            questionNumber := session.questions.length,
            totalQuestions := session.questions.length }
    else if session.awaitingFollowUp &&
        strTruthy session.pendingFollowUpQuestion then
      .ok { sessionId := session.id,
            status := session.status,
            prompt := session.pendingFollowUpQuestion,
            promptType := .follow_up,
            questionNumber := session.questionIndex + 1,
            totalQuestions := session.questions.length }
    else
      .ok { sessionId := session.id,
            status := session.status,
            prompt := session.questions.get? session.questionIndex,
            promptType := .question,
            questionNumber := session.questionIndex + 1,
            totalQuestions := session.questions.length }

end GetCurrentPromptUseCase

/-- SessionResultView from get-session-result.ts. -/
structure SessionResultView where
  sessionId : String
  status : SessionStatus
  result : Option InterviewFeedback
deriving DecidableEq, Repr

namespace GetSessionResultUseCase

/-- execute from get-session-result.ts: NotFound lookup, then echo the stored
status and result. A pure read. -/
def execute (store : Store) (sessionId : String) :
    Except AppError SessionResultView :=
  match findById store sessionId with
  | none => .error .notFound
  | some session =>
    .ok { sessionId := session.id,
          status := session.status,
          result := session.result }

end GetSessionResultUseCase

/-- The session states the system can hold: freshly created ones and those
produced from a reachable state by a successful SubmitAnswer transition. -/
inductive Reachable : InterviewSession → Prop where
  | created : ∀ (input : CreateSessionInput) (id createdAt : String),
      Reachable (CreateSessionUseCase.execute input id createdAt)
  | stepped : ∀ (env : Env) (input : SubmitAnswerInput)
      (s : InterviewSession) (r : SubmitAnswerResult) (s' : InterviewSession),
      Reachable s → SubmitAnswerUseCase.execute env input s = .ok (r, s') →
      Reachable s'

/-- The inductive invariant of reachable session states. -/
structure SessionInv (s : InterviewSession) : Prop where
  idx_le : s.questionIndex ≤ s.questions.length
  awaiting_pending : s.awaitingFollowUp = true →
    strTruthy s.pendingFollowUpQuestion = true
  awaiting_lt : s.awaitingFollowUp = true →
    s.questionIndex < s.questions.length
  not_awaiting_pending : s.awaitingFollowUp = false →
    s.pendingFollowUpQuestion = none
  completed_iff : s.status = .completed ↔ s.result ≠ none
  completed_not_awaiting : s.status = .completed → s.awaitingFollowUp = false
  turns_len : s.turns.length =
    s.questionIndex + (if s.awaitingFollowUp then 1 else 0)

/-- Spec condition of §4.3: `answerText` is present and non-blank, so it is
used as the transcript (JavaScript truthiness of the text and its trim). -/
def answerTextUsable (input : SubmitAnswerInput) : Bool :=
  strTruthy input.answerText && strTruthy (input.answerText.map jsTrim)

/-- Spec condition: an audio payload was provided (JavaScript truthiness). -/
def audioProvided (input : SubmitAnswerInput) : Bool :=
  strTruthy input.audioBase64

/-- Spec condition: `responseDelaySec` is present but negative or non-finite. -/
def delayBad : Option JsNumber → Bool
  | none => false
  | some (.finite q) => decide (q < 0)
  | some .notFinite => true

/-- Spec conditions under which transcript resolution is an InvalidInput
failure: no usable answer text, and the audio is missing, decodes to an empty
payload, or transcribes to blank text. -/
def transcriptInvalidCond (env : Env) (input : SubmitAnswerInput) : Prop :=
  answerTextUsable input = false ∧
  (audioProvided input = false ∨
   (∃ b64, input.audioBase64 = some b64 ∧ env.bufferFromBase64 b64 = []) ∨
   (∃ b64 transcript, input.audioBase64 = some b64 ∧
     ¬env.bufferFromBase64 b64 = [] ∧
     env.transcribe (env.bufferFromBase64 b64)
       (effectiveMimeType input.mimeType) = .ok transcript ∧
     jsTrim transcript = ""))

/-- Spec conditions of §4.3 for an InvalidInput failure of SubmitAnswer:
a bad delay, or (with a good delay) a failing transcript resolution. -/
def invalidInputCond (env : Env) (input : SubmitAnswerInput) : Prop :=
  delayBad input.responseDelaySec = true ∨
  (delayBad input.responseDelaySec = false ∧ transcriptInvalidCond env input)

/-- A stub environment whose interviewer reply always offers a follow-up. -/
def demoEnvFollowUp : Env :=
  { bufferFromBase64 := fun _ => [1],
    transcribe := fun _ _ => .ok "transcribed",
    generateInterviewerReply := fun _ _ =>
      .ok { replyText := "Thanks.", followUpQuestion := some "Why is that?" },
    generateFollowUpClose := fun _ _ _ _ => .ok "Understood.",
    generateFeedback := fun _ _ =>
      .ok { corrections := [],
            improvedBestAnswer := { question := "q", answer := "a" },
            interviewTips := [] } }

/-- A stub environment whose interviewer reply never offers a follow-up. -/
def demoEnvPlain : Env :=
  { demoEnvFollowUp with
    generateInterviewerReply := fun _ _ =>
      .ok { replyText := "Thanks.", followUpQuestion := none } }

/-- A stub environment whose feedback generation fails, to exercise an
oracle failure at the completion transition. -/
def demoEnvFeedbackFails : Env :=
  { demoEnvPlain with generateFeedback := fun _ _ => .error () }

/-- A concrete two-question session with follow-ups allowed. -/
def demoCreateInput : CreateSessionInput :=
  { questionCount := some 2, allowFollowUps := some true }

def demoSession : InterviewSession :=
  CreateSessionUseCase.execute demoCreateInput "s1" "t0"

/-- A concrete one-question session with follow-ups disabled. -/
def demoCreateInputOne : CreateSessionInput :=
  { questionCount := some 1, allowFollowUps := some false }

def demoSessionOne : InterviewSession :=
  CreateSessionUseCase.execute demoCreateInputOne "s2" "t0"

/-- A concrete text answer with no delay supplied. -/
def demoInput : SubmitAnswerInput :=
  { sessionId := "s1", answerText := some "My answer.", audioBase64 := none,
    mimeType := none, responseDelaySec := none }

/-- The session stored after submitting `demoInput` against `demoSession`
when the oracle offers a follow-up. -/
def demoAfterMain : InterviewSession :=
  match SubmitAnswerUseCase.execute demoEnvFollowUp demoInput demoSession with
  | .ok (_, s) => s
  | .error _ => demoSession

/-- The transition result of that same submission. -/
def demoAfterMainResult : SubmitAnswerResult :=
  match SubmitAnswerUseCase.execute demoEnvFollowUp demoInput demoSession with
  | .ok (r, _) => r
  | .error _ =>
    { sessionId := "", status := .in_progress, usedTranscript := "",
      interviewerMessage := "", nextPrompt := none, promptType := .question,
      result := none }

instance exceptDecidableEq {ε α : Type} [DecidableEq ε] [DecidableEq α] :
    DecidableEq (Except ε α)
  | .error a, .error b =>
    if h : a = b then .isTrue (by rw [h]) else .isFalse (by simp [h])
  | .error a, .ok b => .isFalse (by simp)
  | .ok a, .error b => .isFalse (by simp)
  | .ok a, .ok b =>
    if h : a = b then .isTrue (by rw [h]) else .isFalse (by simp [h])

/-- An (unreachable) session state with the awaiting flag set but no pending
follow-up question, exercising the defensive truthiness guard. -/
def demoGhostSession : InterviewSession :=
  { demoSession with
    awaitingFollowUp := true, pendingFollowUpQuestion := none }

/-- A concrete two-question session with follow-ups disabled. -/
def demoCreateInputTwoNoFu : CreateSessionInput :=
  { questionCount := some 2, allowFollowUps := some false }

def demoSessionTwoNoFu : InterviewSession :=
  CreateSessionUseCase.execute demoCreateInputTwoNoFu "s3" "t0"

/-- The answer submitted against the two-question no-follow-ups session. -/
def demoNoFuInput : SubmitAnswerInput :=
  { sessionId := "s3", answerText := some "Done.", audioBase64 := none,
    mimeType := none, responseDelaySec := none }

/-- The session stored after `demoNoFuInput` against `demoSessionTwoNoFu`,
under the environment whose oracle still offers a follow-up question. -/
def demoNoFuAfter : InterviewSession :=
  match SubmitAnswerUseCase.execute demoEnvFollowUp demoNoFuInput
      demoSessionTwoNoFu with
  | .ok (_, s) => s
  | .error _ => demoSessionTwoNoFu

/-- The transition result of that same submission. -/
def demoNoFuAfterResult : SubmitAnswerResult :=
  match SubmitAnswerUseCase.execute demoEnvFollowUp demoNoFuInput
      demoSessionTwoNoFu with
  | .ok (r, _) => r
  | .error _ =>
    { sessionId := "", status := .in_progress, usedTranscript := "",
      interviewerMessage := "", nextPrompt := none, promptType := .question,
      result := none }

/-- The submission against the stored one-question session when feedback
generation fails. -/
def demoFailInput : SubmitAnswerInput :=
  { sessionId := "s2", answerText := some "Done.", audioBase64 := none,
    mimeType := none, responseDelaySec := none }

/-- A stored session marked completed, for the InvalidState check. -/
def demoCompletedSession : InterviewSession :=
  { demoSessionOne with status := .completed }

/-- A submission with neither answer text nor audio. -/
def demoEmptyInput : SubmitAnswerInput :=
  { sessionId := "s2", answerText := none, audioBase64 := none,
    mimeType := none, responseDelaySec := none }

theorem computeTimingSummary_delays_eq (turns : List SessionTurn) :
    (turns.flatMap fun turn =>
      turn.mainResponseDelaySec ::
        (match turn.followUpResponseDelaySec with
         | some d => [d]
         | none => [])) = specFlattenedDelays turns := by
  unfold specFlattenedDelays
  induction turns with
  | nil => rfl
  | cons t ts ih =>
      simp only [List.flatMap_cons] at *
      rw [ih]
      cases t.followUpResponseDelaySec <;> simp [Option.toList]

theorem create_inv (input : CreateSessionInput) (id createdAt : String) :
    SessionInv (CreateSessionUseCase.execute input id createdAt) := by
  constructor <;> simp [CreateSessionUseCase.execute]

theorem completeIfFinished_ok (env : Env) (s : InterviewSession)
    (c : Option InterviewFeedback) (s' : InterviewSession)
    (h : completeIfFinished env s = .ok (c, s')) :
    (s.questionIndex < s.questions.length ∧ c = none ∧ s' = s) ∨
    (s.questions.length ≤ s.questionIndex ∧ ∃ fb,
      c = some fb ∧
      s' = { s with result := some fb, status := .completed }) := by
  unfold completeIfFinished at h
  split at h
  case isTrue hlt =>
    left
    simp only [Except.ok.injEq, Prod.mk.injEq] at h
    exact ⟨hlt, h.1.symm, h.2.symm⟩
  case isFalse hge =>
    right
    refine ⟨Nat.le_of_not_lt hge, ?_⟩
    dsimp only at h
    split at h
    · exact absurd h (by simp)
    · simp only [Except.ok.injEq, Prod.mk.injEq] at h
      exact ⟨_, h.1.symm, h.2.symm⟩

theorem submitMainAnswer_ok (env : Env) (s : InterviewSession) (t : String)
    (d : ℚ) (r : SubmitAnswerResult) (s' : InterviewSession)
    (h : SubmitAnswerUseCase.submitMainAnswer env s t d = .ok (r, s')) :
    ∃ question reply fu,
      s.questions.get? s.questionIndex = some question ∧ ¬question = "" ∧
      env.generateInterviewerReply question t = .ok reply ∧
      fu = (if s.allowFollowUps then reply.followUpQuestion else none) ∧
      ((strTruthy fu = true ∧
        s' = { s with
          turns := s.turns ++ [⟨question, t, fu, none, d, none⟩],
          awaitingFollowUp := true,
          pendingFollowUpQuestion := fu }) ∨
       (strTruthy fu = false ∧ ∃ c, r.result = c ∧
        completeIfFinished env { s with
          turns := s.turns ++ [⟨question, t, fu, none, d, none⟩],
          questionIndex := s.questionIndex + 1 } = .ok (c, s'))) := by
  unfold SubmitAnswerUseCase.submitMainAnswer at h
  split at h
  · simp at h
  case h_2 question hq =>
    split at h
    · simp at h
    case isFalse hne =>
      split at h
      · simp at h
      case h_2 reply hreply =>
        dsimp only at h
        refine ⟨question, reply,
          (if s.allowFollowUps then reply.followUpQuestion else none),
          hq, hne, hreply, rfl, ?_⟩
        cases hAF : s.allowFollowUps with
        | true =>
          simp only [hAF, if_true] at h ⊢
          split at h
          case isTrue htruthy =>
            left
            simp only [Except.ok.injEq, Prod.mk.injEq] at h
            exact ⟨htruthy, h.2.symm⟩
          case isFalse hfalse =>
            right
            refine ⟨Bool.not_eq_true _ |>.mp hfalse, ?_⟩
            split at h
            · simp at h
            case h_2 completion s'' hcomp =>
              simp only [Except.ok.injEq, Prod.mk.injEq] at h
              refine ⟨completion, ?_, ?_⟩
              · rw [← h.1]
              · rw [← h.2]; exact hcomp
        | false =>
          simp only [hAF, Bool.false_eq_true, if_false] at h ⊢
          simp only [strTruthy, Bool.false_eq_true, if_false] at h ⊢
          right
          refine ⟨trivial, ?_⟩
          split at h
          · simp at h
          case h_2 completion s'' hcomp =>
            simp only [Except.ok.injEq, Prod.mk.injEq] at h
            refine ⟨completion, ?_, ?_⟩
            · rw [← h.1]
            · rw [← h.2]; exact hcomp

theorem submitFollowUpAnswer_ok (env : Env) (s : InterviewSession)
    (t : String) (d : ℚ) (r : SubmitAnswerResult) (s' : InterviewSession)
    (h : SubmitAnswerUseCase.submitFollowUpAnswer env s t d = .ok (r, s')) :
    ∃ (activeTurn : SessionTurn) (fq : String) (c : Option InterviewFeedback),
      s.turns.getLast? = some activeTurn ∧
      activeTurn.followUpQuestion = some fq ∧ ¬fq = "" ∧
      completeIfFinished env { s with
        turns := s.turns.dropLast ++
          [{ activeTurn with
              followUpAnswer := some t,
              followUpResponseDelaySec := some d }],
        awaitingFollowUp := false,
        pendingFollowUpQuestion := none,
        questionIndex := s.questionIndex + 1 } = .ok (c, s') ∧
      r.result = c := by
  unfold SubmitAnswerUseCase.submitFollowUpAnswer at h
  split at h
  · simp at h
  case h_2 activeTurn hlast =>
    split at h
    · simp at h
    case h_2 fq hfq =>
      split at h
      · simp at h
      case isFalse hne =>
        dsimp only at h
        split at h
        · simp at h
        case h_2 closeText hclose =>
          split at h
          · simp at h
          case h_2 completion s'' hcomp =>
            simp only [Except.ok.injEq, Prod.mk.injEq] at h
            refine ⟨activeTurn, fq, completion, hlast, hfq, hne, ?_, ?_⟩
            · rw [← h.2]; exact hcomp
            · rw [← h.1]

theorem execute_ok_shape (env : Env) (input : SubmitAnswerInput)
    (s : InterviewSession) (r : SubmitAnswerResult) (s' : InterviewSession)
    (h : SubmitAnswerUseCase.execute env input s = .ok (r, s')) :
    s.status = .in_progress ∧ ∃ t d,
      normalizeDelay input.responseDelaySec = .ok d ∧
      resolveTranscript env input = .ok t ∧
      ((s.awaitingFollowUp = true ∧
        SubmitAnswerUseCase.submitFollowUpAnswer env s t d = .ok (r, s')) ∨
       (s.awaitingFollowUp = false ∧
        SubmitAnswerUseCase.submitMainAnswer env s t d = .ok (r, s'))) := by
  unfold SubmitAnswerUseCase.execute at h
  split at h
  · simp at h
  case isFalse hnc =>
    have hst : s.status = .in_progress := by
      cases hs : s.status
      · rfl
      · exact absurd hs hnc
    refine ⟨hst, ?_⟩
    split at h
    · simp at h
    case h_2 d hd =>
      split at h
      · simp at h
      case h_2 t ht =>
        refine ⟨t, d, hd, ht, ?_⟩
        split at h
        case isTrue hA => exact .inl ⟨hA, h⟩
        case isFalse hA => exact .inr ⟨Bool.not_eq_true _ |>.mp hA, h⟩

theorem completeIfFinished_inv (env : Env) (s1 : InterviewSession)
    (c : Option InterviewFeedback) (s' : InterviewSession)
    (hA : s1.awaitingFollowUp = false)
    (hp : s1.pendingFollowUpQuestion = none)
    (hst : s1.status = .in_progress)
    (hr : s1.result = none)
    (hle : s1.questionIndex ≤ s1.questions.length)
    (hlen : s1.turns.length = s1.questionIndex)
    (h : completeIfFinished env s1 = .ok (c, s')) :
    SessionInv s' ∧ s'.questionIndex = s1.questionIndex := by
  rcases completeIfFinished_ok env s1 c s' h with ⟨hlt, hc, rfl⟩ |
    ⟨hge, fb, hc, rfl⟩
  · refine ⟨⟨hle, ?_, ?_, fun _ => hp, ?_, ?_, ?_⟩, rfl⟩
    · intro hAt; rw [hA] at hAt; exact absurd hAt (by simp)
    · intro hAt; rw [hA] at hAt; exact absurd hAt (by simp)
    · rw [hst, hr]; simp
    · intro hcomp; rw [hst] at hcomp; exact absurd hcomp (by simp)
    · rw [hA]; simpa using hlen
  · refine ⟨⟨hle, ?_, ?_, fun _ => hp, ?_, fun _ => hA, ?_⟩, rfl⟩
    · intro hAt; rw [hA] at hAt; exact absurd hAt (by simp)
    · intro hAt; rw [hA] at hAt; exact absurd hAt (by simp)
    · simp
    · rw [hA]; simpa using hlen

theorem execute_preserves (env : Env) (input : SubmitAnswerInput)
    (s : InterviewSession) (r : SubmitAnswerResult) (s' : InterviewSession)
    (hinv : SessionInv s)
    (h : SubmitAnswerUseCase.execute env input s = .ok (r, s')) :
    SessionInv s' ∧ s.questionIndex ≤ s'.questionIndex ∧
    s.status = .in_progress ∧ s.result = none := by
  obtain ⟨hst, t, d, hd, ht, hbr⟩ := execute_ok_shape env input s r s' h
  have hres : s.result = none := by
    cases hsr : s.result with
    | none => rfl
    | some fb =>
      have : s.status = .completed := hinv.completed_iff.mpr (by rw [hsr]; simp)
      rw [hst] at this
      exact absurd this (by simp)
  rcases hbr with ⟨hA, hsub⟩ | ⟨hA, hsub⟩
  · obtain ⟨activeTurn, fq, c, hlast, hfq, hne, hcomp, hrc⟩ :=
      submitFollowUpAnswer_ok env s t d r s' hsub
    have hturns : s.turns.length = s.questionIndex + 1 := by
      have := hinv.turns_len
      rw [hA] at this
      simpa using this
    have hnonempty : s.turns ≠ [] := by
      intro hnil
      rw [hnil] at hlast
      simp at hlast
    have hlt := hinv.awaiting_lt hA
    have hinv' := completeIfFinished_inv env
      { s with
        turns := s.turns.dropLast ++
          [{ activeTurn with
              followUpAnswer := some t,
              followUpResponseDelaySec := some d }],
        awaitingFollowUp := false,
        pendingFollowUpQuestion := none,
        questionIndex := s.questionIndex + 1 }
      c s' rfl rfl (by simpa using hst) (by simpa using hres)
      (by simpa using Nat.succ_le_of_lt hlt)
      (by
        simp only [List.length_append, List.length_dropLast,
          List.length_singleton]
        omega)
      hcomp
    refine ⟨hinv'.1, ?_, hst, hres⟩
    rw [hinv'.2]
    simp
  · obtain ⟨question, reply, fu, hq, hqne, hreply, hfu, hbr2⟩ :=
      submitMainAnswer_ok env s t d r s' hsub
    have hlt : s.questionIndex < s.questions.length := by
      rcases List.get?_eq_some.mp hq with ⟨hlt, _⟩
      exact hlt
    have hturns : s.turns.length = s.questionIndex := by
      have := hinv.turns_len
      rw [hA] at this
      simpa using this
    rcases hbr2 with ⟨htruthy, rfl⟩ | ⟨hfalse, c, hrc, hcomp⟩
    · refine ⟨⟨hinv.idx_le, fun _ => htruthy, fun _ => hlt, ?_, ?_, ?_, ?_⟩,
        le_refl _, hst, hres⟩
      · intro hAf; exact absurd hAf (by simp)
      · simp [hst, hres]
      · intro hcomp; rw [hst] at hcomp; exact absurd hcomp (by simp)
      · simp [hturns]
    · have hinv' := completeIfFinished_inv env
        { s with
          turns := s.turns ++ [⟨question, t, fu, none, d, none⟩],
          questionIndex := s.questionIndex + 1 }
        c s' (by simpa using hA)
        (by simpa using hinv.not_awaiting_pending hA)
        (by simpa using hst) (by simpa using hres)
        (by simpa using Nat.succ_le_of_lt hlt)
        (by simp [hturns])
        hcomp
      refine ⟨hinv'.1, ?_, hst, hres⟩
      rw [hinv'.2]
      simp

theorem reachable_inv (s : InterviewSession) (h : Reachable s) :
    SessionInv s := by
  induction h with
  | created input id createdAt => exact create_inv input id createdAt
  | stepped env input s r s' hr hstep ih =>
      exact (execute_preserves env input s r s' ih hstep).1

theorem normalizeDelay_error (x : Option JsNumber) (e : AppError)
    (h : normalizeDelay x = .error e) : e = .invalidDelay := by
  cases x with
  | none => simp [normalizeDelay] at h
  | some v =>
    cases v with
    | finite q =>
      simp only [normalizeDelay] at h
      split at h
      · injection h with h; exact h.symm
      · simp at h
    | notFinite =>
      simp only [normalizeDelay] at h
      injection h with h
      exact h.symm

theorem resolveTranscript_error (env : Env) (input : SubmitAnswerInput)
    (e : AppError) (h : resolveTranscript env input = .error e) :
    e = .missingAnswer ∨ e = .emptyAudio ∨ e = .blankTranscript ∨
    e = .oracleFailure := by
  unfold resolveTranscript at h
  split at h
  · simp at h
  · split at h
    · injection h with h; exact .inl h.symm
    · split at h
      · injection h with h; exact .inl h.symm
      · dsimp only at h
        split at h
        · injection h with h; exact .inr (.inl h.symm)
        · split at h
          · injection h with h; exact .inr (.inr (.inr h.symm))
          · split at h
            · injection h with h; exact .inr (.inr (.inl h.symm))
            · simp at h

theorem completeIfFinished_error (env : Env) (s : InterviewSession)
    (e : AppError) (h : completeIfFinished env s = .error e) :
    e = .oracleFailure := by
  unfold completeIfFinished at h
  split at h
  · simp at h
  · dsimp only at h
    split at h
    · injection h with h; exact h.symm
    · simp at h

theorem submitMainAnswer_error (env : Env) (s : InterviewSession)
    (t : String) (d : ℚ) (e : AppError)
    (h : SubmitAnswerUseCase.submitMainAnswer env s t d = .error e) :
    e = .noActiveQuestion ∨ e = .oracleFailure := by
  unfold SubmitAnswerUseCase.submitMainAnswer at h
  split at h
  · injection h with h; exact .inl h.symm
  · split at h
    · injection h with h; exact .inl h.symm
    · split at h
      · injection h with h; exact .inr h.symm
      · dsimp only at h
        split at h <;> split at h
        any_goals simp at h
        all_goals split at h
        any_goals simp at h
        all_goals rename_i e' hcomp
        all_goals exact .inr (h ▸ completeIfFinished_error env _ e' hcomp)

theorem submitFollowUpAnswer_error (env : Env) (s : InterviewSession)
    (t : String) (d : ℚ) (e : AppError)
    (h : SubmitAnswerUseCase.submitFollowUpAnswer env s t d = .error e) :
    e = .followUpUnavailable ∨ e = .oracleFailure := by
  unfold SubmitAnswerUseCase.submitFollowUpAnswer at h
  split at h
  · injection h with h; exact .inl h.symm
  · split at h
    · injection h with h; exact .inl h.symm
    · split at h
      · injection h with h; exact .inl h.symm
      · dsimp only at h
        split at h
        · injection h with h; exact .inr h.symm
        · split at h
          · rename_i e' hcomp
            injection h with h
            exact .inr (h ▸ completeIfFinished_error env _ e' hcomp)
          · simp at h

theorem execute_error_not_notFound (env : Env) (input : SubmitAnswerInput)
    (s : InterviewSession) (e : AppError)
    (h : SubmitAnswerUseCase.execute env input s = .error e) :
    ¬e = .notFound := by
  unfold SubmitAnswerUseCase.execute at h
  split at h
  · injection h with h; rw [← h]; simp
  · split at h
    case h_1 e' hnd =>
      injection h with h
      rw [← h, normalizeDelay_error _ e' hnd]
      simp
    · split at h
      case h_1 e' hrt =>
        injection h with h
        rcases resolveTranscript_error env input e' hrt with h1 | h1 | h1 | h1 <;>
          simp [← h, h1]
      · split at h
        · rcases submitFollowUpAnswer_error env s _ _ e h with h1 | h1 <;>
            simp [h1]
        · rcases submitMainAnswer_error env s _ _ e h with h1 | h1 <;>
            simp [h1]

theorem execute_error_oracle (env : Env) (input : SubmitAnswerInput)
    (s : InterviewSession)
    (h : SubmitAnswerUseCase.execute env input s = .error .oracleFailure) :
    s.status = .in_progress := by
  unfold SubmitAnswerUseCase.execute at h
  split at h
  · simp at h
  case isFalse hnc =>
    cases hs : s.status
    · rfl
    · exact absurd hs hnc

theorem normalizeDelay_ok_of_good (x : Option JsNumber)
    (h : delayBad x = false) : ∃ d, normalizeDelay x = .ok d := by
  cases x with
  | none => exact ⟨0, rfl⟩
  | some v =>
    cases v with
    | finite q =>
      simp only [delayBad, decide_eq_false_iff_not] at h
      exact ⟨roundTo2 q, by simp [normalizeDelay, h]⟩
    | notFinite => simp [delayBad] at h

theorem normalizeDelay_invalid_iff (x : Option JsNumber) :
    (∃ e, normalizeDelay x = .error e ∧ e.isInvalidInput = true) ↔
    delayBad x = true := by
  cases x with
  | none => simp [normalizeDelay, delayBad]
  | some v =>
    cases v with
    | finite q =>
      by_cases hq : q < 0 <;>
        simp [normalizeDelay, delayBad, hq, AppError.isInvalidInput]
    | notFinite => simp [normalizeDelay, delayBad, AppError.isInvalidInput]

theorem resolveTranscript_invalid_iff (env : Env) (input : SubmitAnswerInput) :
    (∃ e, resolveTranscript env input = .error e ∧ e.isInvalidInput = true) ↔
    transcriptInvalidCond env input := by
  by_cases hU : (strTruthy input.answerText &&
      strTruthy (input.answerText.map jsTrim)) = true
  · have hres : resolveTranscript env input =
        .ok (jsTrim (input.answerText.getD "")) := by
      simp [resolveTranscript, hU]
    rw [hres]
    simp [transcriptInvalidCond, answerTextUsable, hU]
  · have hUf : answerTextUsable input = false :=
      Bool.not_eq_true _ |>.mp hU
    cases hab : input.audioBase64 with
    | none =>
      have hres : resolveTranscript env input = .error .missingAnswer := by
        simp [resolveTranscript, hU, hab]
      rw [hres]
      simp [transcriptInvalidCond, hUf, audioProvided, hab, strTruthy,
        AppError.isInvalidInput]
    | some b64 =>
      by_cases hb : b64 = ""
      · subst hb
        have hres : resolveTranscript env input = .error .missingAnswer := by
          simp [resolveTranscript, hU, hab]
        rw [hres]
        simp [transcriptInvalidCond, hUf, audioProvided, hab, strTruthy,
          AppError.isInvalidInput]
      · by_cases hd : env.bufferFromBase64 b64 = []
        · have hres : resolveTranscript env input = .error .emptyAudio := by
            simp [resolveTranscript, hU, hab, hb, hd]
          rw [hres]
          constructor
          · intro _
            exact ⟨hUf, .inr (.inl ⟨b64, hab, hd⟩)⟩
          · intro _
            exact ⟨.emptyAudio, rfl, rfl⟩
        · cases ht : env.transcribe (env.bufferFromBase64 b64)
              (effectiveMimeType input.mimeType) with
          | error u =>
            have hres : resolveTranscript env input =
                .error .oracleFailure := by
              simp [resolveTranscript, hU, hab, hb, hd, ht]
            rw [hres]
            constructor
            · rintro ⟨e, he, hie⟩
              injection he with he
              rw [← he] at hie
              simp [AppError.isInvalidInput] at hie
            · rintro ⟨-, hdisj⟩
              rcases hdisj with h1 | ⟨b64', hb', hd'⟩ |
                ⟨b64', tr', hb', hd', ht', htr'⟩
              · simp [audioProvided, hab, strTruthy, hb] at h1
              · rw [hab] at hb'
                injection hb' with hb'
                subst hb'
                exact absurd hd' hd
              · rw [hab] at hb'
                injection hb' with hb'
                subst hb'
                rw [ht] at ht'
                simp at ht'
          | ok tr =>
            by_cases htr : jsTrim tr = ""
            · have hres : resolveTranscript env input =
                  .error .blankTranscript := by
                simp [resolveTranscript, hU, hab, hb, hd, ht, htr]
              rw [hres]
              constructor
              · intro _
                exact ⟨hUf, .inr (.inr ⟨b64, tr, hab, hd, ht, htr⟩)⟩
              · intro _
                exact ⟨.blankTranscript, rfl, rfl⟩
            · have hres : resolveTranscript env input = .ok (jsTrim tr) := by
                simp [resolveTranscript, hU, hab, hb, hd, ht, htr]
              rw [hres]
              constructor
              · rintro ⟨e, he, -⟩
                simp at he
              · rintro ⟨-, hdisj⟩
                rcases hdisj with h1 | ⟨b64', hb', hd'⟩ |
                  ⟨b64', tr', hb', hd', ht', htr'⟩
                · simp [audioProvided, hab, strTruthy, hb] at h1
                · rw [hab] at hb'
                  injection hb' with hb'
                  subst hb'
                  exact absurd hd' hd
                · rw [hab] at hb'
                  injection hb' with hb'
                  subst hb'
                  rw [ht] at ht'
                  injection ht' with ht'
                  subst ht'
                  exact absurd htr' htr

theorem delayBad_false_of_ok (x : Option JsNumber) (d : ℚ)
    (h : normalizeDelay x = .ok d) : delayBad x = false := by
  cases x with
  | none => rfl
  | some v =>
    cases v with
    | finite q =>
      simp only [normalizeDelay] at h
      split at h
      · simp at h
      case isFalse hq => simp [delayBad, hq]
    | notFinite => simp [normalizeDelay] at h

theorem execute_invalid_iff (env : Env) (input : SubmitAnswerInput)
    (s : InterviewSession) (hst : s.status = .in_progress) :
    (∃ e, SubmitAnswerUseCase.execute env input s = .error e ∧
      e.isInvalidInput = true) ↔ invalidInputCond env input := by
  unfold SubmitAnswerUseCase.execute
  rw [hst, if_neg (by simp)]
  cases hnd : normalizeDelay input.responseDelaySec with
  | error e' =>
    have he' := normalizeDelay_error _ e' hnd
    subst he'
    have hbad : delayBad input.responseDelaySec = true :=
      (normalizeDelay_invalid_iff _).mp ⟨.invalidDelay, hnd, rfl⟩
    simp [invalidInputCond, hbad, AppError.isInvalidInput]
  | ok d =>
    have hbadf := delayBad_false_of_ok _ d hnd
    cases hrt : resolveTranscript env input with
    | error e' =>
      dsimp only
      constructor
      · rintro ⟨e, he, hie⟩
        injection he with he
        subst he
        exact .inr ⟨hbadf, (resolveTranscript_invalid_iff env input).mp
          ⟨e', hrt, hie⟩⟩
      · rintro (h1 | ⟨-, hcond⟩)
        · rw [hbadf] at h1
          simp at h1
        · obtain ⟨e, he, hie⟩ :=
            (resolveTranscript_invalid_iff env input).mpr hcond
          rw [hrt] at he
          injection he with he
          subst he
          exact ⟨e', rfl, hie⟩
    | ok t =>
      dsimp only
      constructor
      · rintro ⟨e, he, hie⟩
        by_cases hA : s.awaitingFollowUp = true
        · rw [if_pos hA] at he
          rcases submitFollowUpAnswer_error env s t d e he
            with h1 | h1 <;> (rw [h1] at hie; simp [AppError.isInvalidInput] at hie)
        · rw [if_neg hA] at he
          rcases submitMainAnswer_error env s t d e he
            with h1 | h1 <;> (rw [h1] at hie; simp [AppError.isInvalidInput] at hie)
      · rintro (h1 | ⟨-, hcond⟩)
        · rw [hbadf] at h1
          simp at h1
        · obtain ⟨e, he, -⟩ :=
            (resolveTranscript_invalid_iff env input).mpr hcond
          rw [hrt] at he
          simp at he

theorem roundTo2_eq_round (q : ℚ) :
    roundTo2 q = ((round (q * 100) : ℤ) : ℚ) / 100 := by
  rw [roundTo2, round_eq]

/-- C3: the Timing Aggregator flattens every `mainResponseDelaySec` plus every
present `followUpResponseDelaySec` into one sequence; `avgResponseDelaySec` is
that sequence's arithmetic mean rounded to 2 decimals (0 when empty),
`longPausesCount` counts entries strictly greater than 4, and `totalTurns` is
the flattened length; in particular, on turns with delays [2.0] and
[5.0, 1.0] it returns totalTurns = 3, avgResponseDelaySec = 2.67 and
longPausesCount = 1. -/
theorem computeTimingSummary_spec :
    (∀ turns : List SessionTurn,
      computeTimingSummary turns =
        { avgResponseDelaySec :=
            if specFlattenedDelays turns = [] then 0
            else roundTo2 ((specFlattenedDelays turns).sum /
              ((specFlattenedDelays turns).length : ℚ)),
          longPausesCount :=
            ((specFlattenedDelays turns).filter fun d => 4 < d).length,
          totalTurns := (specFlattenedDelays turns).length }) ∧
    computeTimingSummary
      [{ question := "q1", answer := "a1", followUpQuestion := none,
         followUpAnswer := none, mainResponseDelaySec := 2,
         followUpResponseDelaySec := none },
       { question := "q2", answer := "a2", followUpQuestion := some "f2",
         followUpAnswer := some "fa2", mainResponseDelaySec := 5,
         followUpResponseDelaySec := some 1 }] =
      { avgResponseDelaySec := 267 / 100, longPausesCount := 1,
        totalTurns := 3 } := by
  constructor
  · intro turns
    unfold computeTimingSummary
    rw [computeTimingSummary_delays_eq]
    by_cases h : specFlattenedDelays turns = []
    · simp [h]
    · have hlen : ¬(specFlattenedDelays turns).length = 0 := by
        simpa [List.length_eq_zero] using h
      simp [h, hlen]
  · norm_num [computeTimingSummary, roundTo2, specFlattenedDelays]

/-- C8: session creation defaults `questionCount` to 3 when absent and
silently clamps to [1, catalog length] (below 1 raised to 1, above the
catalog length capped there — 50 against the 10-item catalog yields 10),
the questions are a prefix slice of the static catalog of the clamped
length, and the new session starts with questionIndex = 0,
awaitingFollowUp = false, turns = [], result = null, status = in_progress. -/
theorem createSession_spec (input : CreateSessionInput)
    (id createdAt : String) :
    (CreateSessionUseCase.execute input id createdAt).questionIndex = 0 ∧
    (CreateSessionUseCase.execute input id createdAt).awaitingFollowUp =
      false ∧
    (CreateSessionUseCase.execute input id createdAt).turns = [] ∧
    (CreateSessionUseCase.execute input id createdAt).result = none ∧
    (CreateSessionUseCase.execute input id createdAt).status = .in_progress ∧
    1 ≤ (CreateSessionUseCase.execute input id createdAt).questions.length ∧
    (CreateSessionUseCase.execute input id createdAt).questions.length ≤
      QUESTION_BANK.length ∧
    (CreateSessionUseCase.execute input id createdAt).questions =
      QUESTION_BANK.take
        (CreateSessionUseCase.execute input id createdAt).questions.length ∧
    (input.questionCount = none →
      (CreateSessionUseCase.execute input id createdAt).questions.length =
        3) ∧
    (∀ n : ℤ, input.questionCount = some n → n < 1 →
      (CreateSessionUseCase.execute input id createdAt).questions.length =
        1) ∧
    (∀ n : ℤ, input.questionCount = some n →
      (QUESTION_BANK.length : ℤ) < n →
      (CreateSessionUseCase.execute input id createdAt).questions.length =
        QUESTION_BANK.length) ∧
    (∀ n : ℤ, input.questionCount = some n → 1 ≤ n →
      n ≤ (QUESTION_BANK.length : ℤ) →
      (CreateSessionUseCase.execute input id createdAt).questions.length =
        n.toNat) := by
  have hbank : QUESTION_BANK.length = 10 := by decide
  refine ⟨rfl, rfl, rfl, rfl, rfl, ?_, ?_, ?_, ?_, ?_, ?_, ?_⟩
  · unfold CreateSessionUseCase.execute
    dsimp only
    rw [List.length_take]
    omega
  · unfold CreateSessionUseCase.execute
    dsimp only
    rw [List.length_take]
    omega
  · unfold CreateSessionUseCase.execute
    dsimp only
    rw [List.length_take]
    exact List.take_eq_take.mpr (by omega)
  · intro hqc
    unfold CreateSessionUseCase.execute
    dsimp only
    rw [hqc, List.length_take]
    dsimp only [Option.getD]
    omega
  · intro n hqc hn
    unfold CreateSessionUseCase.execute
    dsimp only
    rw [hqc, List.length_take]
    dsimp only [Option.getD]
    omega
  · intro n hqc hn
    unfold CreateSessionUseCase.execute
    dsimp only
    rw [hqc, List.length_take]
    dsimp only [Option.getD]
    omega
  · intro n hqc h1 h2
    unfold CreateSessionUseCase.execute
    dsimp only
    rw [hqc, List.length_take]
    dsimp only [Option.getD]
    omega

/-- C8 witness: creating with questionCount 50 against the 10-item catalog
silently clamps to 10 questions and initializes the fresh in-progress state. -/
theorem createSession_spec_witness :
    (CreateSessionUseCase.execute ⟨some 50, none⟩ "w8" "t").questionIndex =
      0 ∧
    (CreateSessionUseCase.execute ⟨some 50, none⟩ "w8" "t").status =
      .in_progress ∧
    (CreateSessionUseCase.execute ⟨some 50, none⟩ "w8" "t").questions.length =
      QUESTION_BANK.length :=
  ⟨(createSession_spec ⟨some 50, none⟩ "w8" "t").1,
   (createSession_spec ⟨some 50, none⟩ "w8" "t").2.2.2.2.1,
   (createSession_spec ⟨some 50, none⟩ "w8" "t").2.2.2.2.2.2.2.2.2.2.1 50 rfl
     (by decide)⟩

/-- C9: GetCurrentPrompt fails with NotFound exactly when the session is
missing; on a (reachable) stored session it returns the completed view when
status is completed (prompt null, promptType completed, questionNumber =
totalQuestions), the pending follow-up when awaitingFollowUp holds
(promptType follow_up, questionNumber = questionIndex + 1), and otherwise the
current catalog question (promptType question, questionNumber =
questionIndex + 1); the embedding types it as a pure read of the store. -/
theorem getCurrentPrompt_spec (store : Store) (sessionId : String) :
    (GetCurrentPromptUseCase.execute store sessionId = .error .notFound ↔
      findById store sessionId = none) ∧
    (∀ s, findById store sessionId = some s → Reachable s →
      (s.status = .completed →
        GetCurrentPromptUseCase.execute store sessionId =
          .ok { sessionId := s.id, status := s.status, prompt := none,
                promptType := .completed,
                questionNumber := s.questions.length,
                totalQuestions := s.questions.length }) ∧
      (s.status = .in_progress → s.awaitingFollowUp = true →
        GetCurrentPromptUseCase.execute store sessionId =
          .ok { sessionId := s.id, status := s.status,
                prompt := s.pendingFollowUpQuestion,
                promptType := .follow_up,
                questionNumber := s.questionIndex + 1,
                totalQuestions := s.questions.length }) ∧
      (s.status = .in_progress → s.awaitingFollowUp = false →
        GetCurrentPromptUseCase.execute store sessionId =
          .ok { sessionId := s.id, status := s.status,
                prompt := s.questions.get? s.questionIndex,
                promptType := .question,
                questionNumber := s.questionIndex + 1,
                totalQuestions := s.questions.length })) := by
  constructor
  · constructor
    · intro herr
      unfold GetCurrentPromptUseCase.execute at herr
      cases hfind : findById store sessionId with
      | none => rfl
      | some s =>
        rw [hfind] at herr
        dsimp only at herr
        split at herr
        · simp at herr
        · split at herr <;> simp at herr
    · intro hfind
      unfold GetCurrentPromptUseCase.execute
      rw [hfind]
  · intro s hfind hreach
    have inv := reachable_inv s hreach
    refine ⟨?_, ?_, ?_⟩
    · intro hcomp
      unfold GetCurrentPromptUseCase.execute
      rw [hfind]
      dsimp only
      rw [if_pos hcomp]
    · intro hst hA
      unfold GetCurrentPromptUseCase.execute
      rw [hfind]
      dsimp only
      rw [if_neg (by rw [hst]; simp),
        if_pos (by rw [hA, inv.awaiting_pending hA]; rfl)]
    · intro hst hA
      unfold GetCurrentPromptUseCase.execute
      rw [hfind]
      dsimp only
      rw [if_neg (by rw [hst]; simp),
        if_neg (by rw [hA]; simp)]

theorem demoAfterMain_step :
    SubmitAnswerUseCase.execute demoEnvFollowUp demoInput demoSession =
      .ok (demoAfterMainResult, demoAfterMain) := by decide

theorem demoAfterMain_reachable : Reachable demoAfterMain :=
  Reachable.stepped demoEnvFollowUp demoInput demoSession demoAfterMainResult
    demoAfterMain (Reachable.created demoCreateInput "s1" "t0")
    demoAfterMain_step

/-- C9 witness: on a store holding the concrete awaiting-follow-up session,
GetCurrentPrompt returns the pending follow-up view; on the empty store it
fails with NotFound. -/
theorem getCurrentPrompt_spec_witness :
    GetCurrentPromptUseCase.execute [("s1", demoAfterMain)] "s1" =
      .ok { sessionId := demoAfterMain.id, status := demoAfterMain.status,
            prompt := demoAfterMain.pendingFollowUpQuestion,
            promptType := .follow_up,
            questionNumber := demoAfterMain.questionIndex + 1,
            totalQuestions := demoAfterMain.questions.length } ∧
    GetCurrentPromptUseCase.execute [] "s1" = .error .notFound :=
  ⟨((getCurrentPrompt_spec [("s1", demoAfterMain)] "s1").2 demoAfterMain
      (by decide) demoAfterMain_reachable).2.1 (by decide) (by decide),
   (getCurrentPrompt_spec [] "s1").1.mpr rfl⟩

/-- C10: GetCurrentPrompt takes the follow-up branch only when both
awaitingFollowUp is true and pendingFollowUpQuestion is non-null; on an
in-progress session with awaitingFollowUp set but no pending follow-up it
falls through to the main-question branch and returns promptType = question
with the current catalog question, not a null follow-up prompt. -/
theorem getCurrentPrompt_followUp_guard (store : Store) (sessionId : String)
    (s : InterviewSession) (hfind : findById store sessionId = some s) :
    (∀ r, GetCurrentPromptUseCase.execute store sessionId = .ok r →
      r.promptType = .follow_up →
      s.awaitingFollowUp = true ∧ ¬s.pendingFollowUpQuestion = none) ∧
    (s.status = .in_progress → s.awaitingFollowUp = true →
      s.pendingFollowUpQuestion = none →
      GetCurrentPromptUseCase.execute store sessionId =
        .ok { sessionId := s.id, status := s.status,
              prompt := s.questions.get? s.questionIndex,
              promptType := .question,
              questionNumber := s.questionIndex + 1,
              totalQuestions := s.questions.length }) := by
  constructor
  · intro r hok hft
    unfold GetCurrentPromptUseCase.execute at hok
    rw [hfind] at hok
    dsimp only at hok
    split at hok
    · injection hok with hok
      rw [← hok] at hft
      simp at hft
    · split at hok
      case isTrue hcond =>
        have hcond' : s.awaitingFollowUp = true ∧
            strTruthy s.pendingFollowUpQuestion = true := by
          constructor
          · exact Bool.and_elim_left hcond
          · exact Bool.and_elim_right hcond
        refine ⟨hcond'.1, ?_⟩
        intro hp
        rw [hp] at hcond'
        simp [strTruthy] at hcond'
      · injection hok with hok
        rw [← hok] at hft
        simp at hft
  · intro hst hA hp
    unfold GetCurrentPromptUseCase.execute
    rw [hfind]
    dsimp only
    rw [if_neg (by rw [hst]; simp), if_neg (by rw [hp]; simp [strTruthy])]

/-- C10 witness: on a stored session with awaitingFollowUp true but no
pending follow-up, GetCurrentPrompt returns the main-question view. -/
theorem getCurrentPrompt_followUp_guard_witness :
    GetCurrentPromptUseCase.execute [("s1", demoGhostSession)] "s1" =
      .ok { sessionId := demoGhostSession.id,
            status := demoGhostSession.status,
            prompt :=
              demoGhostSession.questions.get? demoGhostSession.questionIndex,
            promptType := .question,
            questionNumber := demoGhostSession.questionIndex + 1,
            totalQuestions := demoGhostSession.questions.length } :=
  (getCurrentPrompt_followUp_guard [("s1", demoGhostSession)] "s1"
    demoGhostSession (by decide)).2 (by decide) (by decide) (by decide)

/-- C1 counterexample: after submitting a main answer whose reply carries a
follow-up question, the stored (reachable) session has awaitingFollowUp true
and turns.length = 1 while questionIndex = 0, so `turns.length ==
questionIndex` fails at this stable observation point between submissions. -/
theorem turns_length_eq_index_counterexample :
    Reachable demoAfterMain ∧ demoAfterMain.awaitingFollowUp = true ∧
    ¬demoAfterMain.turns.length = demoAfterMain.questionIndex :=
  ⟨demoAfterMain_reachable, by decide, by decide⟩

/-- C1 (amended): at stable points between submissions, `turns.length ==
questionIndex` holds whenever awaitingFollowUp is false — one turn is
appended exactly when a main answer is recorded — but while awaitingFollowUp
is true the turn for the current question is already appended and the index
has not yet advanced, so `turns.length == questionIndex + 1` there. -/
theorem turns_length_vs_index (s : InterviewSession) (h : Reachable s) :
    (s.awaitingFollowUp = false → s.turns.length = s.questionIndex) ∧
    (s.awaitingFollowUp = true → s.turns.length = s.questionIndex + 1) := by
  have inv := reachable_inv s h
  constructor <;> intro hA <;> have hlen := inv.turns_len <;>
    rw [hA] at hlen <;> simpa using hlen

/-- C1 witness: the freshly created session has awaitingFollowUp false and
0 turns at questionIndex 0; the concrete awaiting-follow-up session has one
turn at questionIndex 0. -/
theorem turns_length_vs_index_witness :
    demoSession.turns.length = demoSession.questionIndex ∧
    demoAfterMain.turns.length = demoAfterMain.questionIndex + 1 :=
  ⟨(turns_length_vs_index demoSession
      (Reachable.created demoCreateInput "s1" "t0")).1 (by decide),
   (turns_length_vs_index demoAfterMain demoAfterMain_reachable).2
     (by decide)⟩

/-- C4: submitting a main answer on a session with allowFollowUps = false
never sets awaitingFollowUp, and the appended turn records
followUpQuestion = null, whatever follow-up question the coaching oracle
returned. -/
theorem no_followUp_when_disabled (env : Env) (input : SubmitAnswerInput)
    (s : InterviewSession) (r : SubmitAnswerResult) (s' : InterviewSession)
    (hAF : s.allowFollowUps = false) (hA : s.awaitingFollowUp = false)
    (h : SubmitAnswerUseCase.execute env input s = .ok (r, s')) :
    s'.awaitingFollowUp = false ∧
    ∃ turn, s'.turns = s.turns ++ [turn] ∧ turn.followUpQuestion = none := by
  obtain ⟨hst, t, d, hd, ht, hbr⟩ := execute_ok_shape env input s r s' h
  rcases hbr with ⟨hA', -⟩ | ⟨-, hsub⟩
  · rw [hA] at hA'
    exact absurd hA' (by simp)
  · obtain ⟨question, reply, fu, hq, hqne, hreply, hfu, hbr2⟩ :=
      submitMainAnswer_ok env s t d r s' hsub
    have hfun : fu = none := by rw [hfu, hAF]; simp
    subst hfun
    rcases hbr2 with ⟨htruthy, -⟩ | ⟨-, c, -, hcomp⟩
    · simp [strTruthy] at htruthy
    · rcases completeIfFinished_ok env _ c s' hcomp with ⟨-, -, rfl⟩ |
        ⟨-, fb, -, rfl⟩
      · exact ⟨hA, ⟨question, t, none, none, d, none⟩, rfl, rfl⟩
      · exact ⟨hA, ⟨question, t, none, none, d, none⟩, rfl, rfl⟩

theorem demoNoFu_step :
    SubmitAnswerUseCase.execute demoEnvFollowUp demoNoFuInput
      demoSessionTwoNoFu = .ok (demoNoFuAfterResult, demoNoFuAfter) := by
  decide

/-- C4 witness: submitting against the concrete allowFollowUps = false
session while the oracle returns a follow-up leaves awaitingFollowUp false
and stores a turn with followUpQuestion = null. -/
theorem no_followUp_when_disabled_witness :
    demoSessionTwoNoFu.allowFollowUps = false ∧
    demoNoFuAfter.awaitingFollowUp = false ∧
    ∃ turn, demoNoFuAfter.turns = demoSessionTwoNoFu.turns ++ [turn] ∧
      turn.followUpQuestion = none :=
  ⟨by decide,
   no_followUp_when_disabled demoEnvFollowUp demoNoFuInput demoSessionTwoNoFu
     demoNoFuAfterResult demoNoFuAfter (by decide) (by decide) demoNoFu_step⟩

/-- C5: on every reachable session, status = completed iff result is
non-null; any successful SubmitAnswer transition starts from result = null
and only sets a non-null result together with the completed status, so the
result is populated exactly once, at the transition into completed; and
GetResult echoes the stored status and result, with result = null unless the
status is completed. -/
theorem completed_iff_result (s : InterviewSession) (h : Reachable s) :
    (s.status = .completed ↔ ¬s.result = none) ∧
    (∀ env input r s',
      SubmitAnswerUseCase.execute env input s = .ok (r, s') →
      s.result = none ∧ (¬s'.result = none → s'.status = .completed)) ∧
    (∀ store sid, findById store sid = some s →
      GetSessionResultUseCase.execute store sid =
        .ok { sessionId := s.id, status := s.status, result := s.result } ∧
      (¬s.status = .completed → s.result = none)) := by
  have inv := reachable_inv s h
  refine ⟨inv.completed_iff, ?_, ?_⟩
  · intro env input r s' hex
    have hp := execute_preserves env input s r s' inv hex
    refine ⟨hp.2.2.2, ?_⟩
    intro hr
    exact hp.1.completed_iff.mpr hr
  · intro store sid hfind
    constructor
    · unfold GetSessionResultUseCase.execute
      rw [hfind]
    · intro hnc
      cases hres : s.result with
      | none => rfl
      | some fb =>
        exact absurd (inv.completed_iff.mpr (by rw [hres]; simp)) hnc

/-- C5 witness: the fresh session and the concrete awaiting-follow-up
session both satisfy the equivalence with a null result in progress, and
GetResult on the stored fresh session echoes the null result. -/
theorem completed_iff_result_witness :
    (demoSession.status = .completed ↔ ¬demoSession.result = none) ∧
    (demoSession.result = none ∧
      (¬demoAfterMain.result = none → demoAfterMain.status = .completed)) ∧
    GetSessionResultUseCase.execute [("s1", demoSession)] "s1" =
      .ok { sessionId := demoSession.id, status := demoSession.status,
            result := demoSession.result } :=
  ⟨(completed_iff_result demoSession
      (Reachable.created demoCreateInput "s1" "t0")).1,
   (completed_iff_result demoSession
      (Reachable.created demoCreateInput "s1" "t0")).2.1 demoEnvFollowUp
     demoInput demoAfterMainResult demoAfterMain demoAfterMain_step,
   ((completed_iff_result demoSession
      (Reachable.created demoCreateInput "s1" "t0")).2.2 [("s1", demoSession)]
     "s1" (by decide)).1⟩

/-- C6: every reachable session satisfies questionIndex ≤ questions.length,
awaitingFollowUp = true exactly when pendingFollowUpQuestion is non-null
(they are set and cleared together), and every successful SubmitAnswer
transition leaves questionIndex no smaller, so the index never decreases. -/
theorem session_state_invariants (s : InterviewSession) (h : Reachable s) :
    s.questionIndex ≤ s.questions.length ∧
    (s.awaitingFollowUp = true ↔ ¬s.pendingFollowUpQuestion = none) ∧
    (∀ env input r s',
      SubmitAnswerUseCase.execute env input s = .ok (r, s') →
      s.questionIndex ≤ s'.questionIndex) := by
  have inv := reachable_inv s h
  refine ⟨inv.idx_le, ⟨?_, ?_⟩, ?_⟩
  · intro hA
    have hp := inv.awaiting_pending hA
    cases hpend : s.pendingFollowUpQuestion with
    | none => rw [hpend] at hp; simp [strTruthy] at hp
    | some q => simp
  · intro hp
    cases hA : s.awaitingFollowUp with
    | false => exact absurd (inv.not_awaiting_pending hA) hp
    | true => rfl
  · intro env input r s' hex
    exact (execute_preserves env input s r s' inv hex).2.1

/-- C6 witness: the index bound and flag-pendency equivalence hold on the
fresh session and on the concrete awaiting-follow-up session, and the
concrete main-answer step did not decrease the index. -/
theorem session_state_invariants_witness :
    demoAfterMain.questionIndex ≤ demoAfterMain.questions.length ∧
    (demoAfterMain.awaitingFollowUp = true ↔
      ¬demoAfterMain.pendingFollowUpQuestion = none) ∧
    demoSession.questionIndex ≤ demoAfterMain.questionIndex :=
  ⟨(session_state_invariants demoAfterMain demoAfterMain_reachable).1,
   (session_state_invariants demoAfterMain demoAfterMain_reachable).2.1,
   (session_state_invariants demoSession
      (Reachable.created demoCreateInput "s1" "t0")).2.2 demoEnvFollowUp
     demoInput demoAfterMainResult demoAfterMain demoAfterMain_step⟩

/-- C2: a SubmitAnswer transition that aborts with an error — in particular
one whose external oracle call failed — persists nothing: the store after
the request is the store before it, and on an oracle failure the stored
session exists and is still in_progress; the snapshot is saved only when the
whole transition succeeds. -/
theorem failed_transition_persists_nothing (env : Env) (store : Store)
    (input : SubmitAnswerInput) (e : AppError)
    (herr : SubmitAnswerUseCase.executeStore env store input = .error e) :
    SubmitAnswerUseCase.storeAfter env store input = store ∧
    (e = .oracleFailure → ∃ s, findById store input.sessionId = some s ∧
      s.status = .in_progress) := by
  constructor
  · unfold SubmitAnswerUseCase.storeAfter
    rw [herr]
  · intro he
    subst he
    unfold SubmitAnswerUseCase.executeStore at herr
    cases hfind : findById store input.sessionId with
    | none =>
      rw [hfind] at herr
      simp at herr
    | some s =>
      rw [hfind] at herr
      dsimp only at herr
      refine ⟨s, rfl, ?_⟩
      cases hex : SubmitAnswerUseCase.execute env input s with
      | error e' =>
        rw [hex] at herr
        dsimp only at herr
        injection herr with herr
        rw [herr] at hex
        exact execute_error_oracle env input s hex
      | ok p =>
        rw [hex] at herr
        simp at herr

theorem demoFail_err :
    SubmitAnswerUseCase.executeStore demoEnvFeedbackFails
      [("s2", demoSessionOne)] demoFailInput = .error .oracleFailure := by
  decide

/-- C2 witness: with failing feedback generation, the submit against the
stored one-question session aborts with the propagated oracle failure, the
store is unchanged and the stored session is still in progress. -/
theorem failed_transition_persists_nothing_witness :
    SubmitAnswerUseCase.storeAfter demoEnvFeedbackFails
      [("s2", demoSessionOne)] demoFailInput = [("s2", demoSessionOne)] ∧
    ∃ s, findById [("s2", demoSessionOne)] demoFailInput.sessionId = some s ∧
      s.status = .in_progress :=
  ⟨(failed_transition_persists_nothing demoEnvFeedbackFails
      [("s2", demoSessionOne)] demoFailInput .oracleFailure demoFail_err).1,
   (failed_transition_persists_nothing demoEnvFeedbackFails
      [("s2", demoSessionOne)] demoFailInput .oracleFailure demoFail_err).2
     rfl⟩

/-- C7: SubmitAnswer fails with NotFound exactly when no session is stored
under the given id; on a completed stored session it fails with the
InvalidState already-completed error; on an in-progress stored session it
fails with an InvalidInput error exactly when neither answerText nor audio
is usable, the decoded audio is empty, transcription yields blank text, or
responseDelaySec is negative or non-finite; responseDelaySec defaults to 0
when absent and is rounded to 2 decimals otherwise. -/
theorem submitAnswer_error_spec (env : Env) (store : Store)
    (input : SubmitAnswerInput) :
    (SubmitAnswerUseCase.executeStore env store input = .error .notFound ↔
      findById store input.sessionId = none) ∧
    (∀ s, findById store input.sessionId = some s →
      s.status = .completed →
      SubmitAnswerUseCase.executeStore env store input =
        .error .sessionCompleted) ∧
    (∀ s, findById store input.sessionId = some s →
      s.status = .in_progress →
      ((∃ e, SubmitAnswerUseCase.executeStore env store input = .error e ∧
        e.isInvalidInput = true) ↔ invalidInputCond env input)) ∧
    normalizeDelay none = .ok 0 ∧
    (∀ q : ℚ, 0 ≤ q →
      normalizeDelay (some (.finite q)) = .ok (roundTo2 q)) := by
  refine ⟨⟨?_, ?_⟩, ?_, ?_, rfl, ?_⟩
  · intro herr
    unfold SubmitAnswerUseCase.executeStore at herr
    cases hfind : findById store input.sessionId with
    | none => rfl
    | some s =>
      rw [hfind] at herr
      dsimp only at herr
      cases hex : SubmitAnswerUseCase.execute env input s with
      | error e' =>
        rw [hex] at herr
        dsimp only at herr
        injection herr with herr
        rw [herr] at hex
        exact absurd rfl (execute_error_not_notFound env input s _ hex)
      | ok p =>
        rw [hex] at herr
        cases p
        simp at herr
  · intro hfind
    unfold SubmitAnswerUseCase.executeStore
    rw [hfind]
  · intro s hfind hcomp
    have hex : SubmitAnswerUseCase.execute env input s =
        .error .sessionCompleted := by
      unfold SubmitAnswerUseCase.execute
      rw [if_pos hcomp]
    unfold SubmitAnswerUseCase.executeStore
    rw [hfind]
    dsimp only
    rw [hex]
  · intro s hfind hst
    have hiff := execute_invalid_iff env input s hst
    constructor
    · rintro ⟨e, he, hie⟩
      apply hiff.mp
      refine ⟨e, ?_, hie⟩
      unfold SubmitAnswerUseCase.executeStore at he
      rw [hfind] at he
      dsimp only at he
      cases hex : SubmitAnswerUseCase.execute env input s with
      | error e' =>
        rw [hex] at he
        dsimp only at he
        injection he with he
        rw [← he]
      | ok p =>
        rw [hex] at he
        cases p
        simp at he
    · intro hcond
      obtain ⟨e, hex, hie⟩ := hiff.mpr hcond
      refine ⟨e, ?_, hie⟩
      unfold SubmitAnswerUseCase.executeStore
      rw [hfind]
      dsimp only
      rw [hex]
  · intro q hq
    simp only [normalizeDelay]
    rw [if_neg (not_lt.mpr hq)]

/-- C7 witness: NotFound on the empty store; InvalidState on a completed
stored session; an InvalidInput failure when neither answerText nor audio is
provided; and delay normalization at the concrete value 2. -/
theorem submitAnswer_error_spec_witness :
    SubmitAnswerUseCase.executeStore demoEnvPlain [] demoEmptyInput =
      .error .notFound ∧
    SubmitAnswerUseCase.executeStore demoEnvPlain
      [("s2", demoCompletedSession)] demoEmptyInput =
      .error .sessionCompleted ∧
    (∃ e, SubmitAnswerUseCase.executeStore demoEnvPlain
      [("s2", demoSessionOne)] demoEmptyInput = .error e ∧
      e.isInvalidInput = true) ∧
    normalizeDelay (some (.finite 2)) = .ok (roundTo2 2) :=
  ⟨(submitAnswer_error_spec demoEnvPlain [] demoEmptyInput).1.mpr rfl,
   (submitAnswer_error_spec demoEnvPlain [("s2", demoCompletedSession)]
      demoEmptyInput).2.1 demoCompletedSession (by decide) (by decide),
   ((submitAnswer_error_spec demoEnvPlain [("s2", demoSessionOne)]
      demoEmptyInput).2.2.1 demoSessionOne (by decide) (by decide)).mpr
     (.inr ⟨rfl, rfl, .inl rfl⟩),
   (submitAnswer_error_spec demoEnvPlain [] demoEmptyInput).2.2.2.2 2
     (by norm_num)⟩
